import Mathlib

/-!
Verification of the furina-sync reconciliation engine.

We shallow-embed the Go sources:
* `internal/database/mysql.go` — the `discord_messages` table semantics
  (`CreateTable`'s UNIQUE KEY, `UpsertMessage`'s INSERT … ON DUPLICATE KEY
  UPDATE, `DeleteMessage`, `CleanupRemovedIncidents`), the pure decision
  helper `ShouldRenotifyFromCache`;
* `main.go` — the evaluation-variant `syncIncidents` cycle (its per-worker
  body, cache-failure fallback and fetch-error abort), modelled as a pure
  function from an environment of external-call oracles to an outcome plus
  a trace of side effects;
* the notification-variant `syncIncidents` / `sendDiscordNotification`
  (second main variant in the sources), modelled the same way;
* the file-snapshot storage (`SaveIncident` / `IncidentExists`).

Go `time.Time` is modelled as whole seconds plus nanoseconds; `Unix()`
returns the seconds field and `time.Since` subtracts, with an explicit
`now` standing for the wall clock read inside `time.Since`.
-/

namespace FurinaSync

/-- Go `time.Time`: absolute seconds since epoch plus a nanosecond part
(Go keeps `0 ≤ nsec < 10^9`; the claims never need that bound). -/
structure GoTime where
  sec : Int
  nsec : Int
deriving DecidableEq, Repr

/-- `time.Time.Unix()`: the whole-second part, i.e. the timestamp truncated
to one-second resolution. -/
def GoTime.unix (t : GoTime) : Int := t.sec

/-- `time.Since(t)` evaluated at wall clock `now`: the elapsed duration
`now - t` in nanoseconds (Go `time.Duration` is an integer nanosecond count). -/
def GoTime.since (now t : GoTime) : Int :=
  (now.sec - t.sec) * 1000000000 + (now.nsec - t.nsec)

/-- `time.Minute` in nanoseconds. -/
def minuteNs : Int := 60 * 1000000000

/-- `jira.Incident` (the fields the engine consults). -/
structure Incident where
  key : String
  title : String
  status : String
  issueType : String
  assignee : String
  createdDate : GoTime
  updatedDate : GoTime
deriving DecidableEq, Repr

/-- `database.MessageToDelete`: one row of `discord_messages` as read back. -/
structure MessageToDelete where
  incidentKey : String
  channelID : String
  messageID : String
  assignee : String
  createdAt : GoTime
  lastNotification : GoTime
deriving DecidableEq, Repr

/-- `database.CachedEvaluation`: one row of `incident_evaluations` as read back. -/
structure CachedEvaluation where
  incidentKey : String
  jiraUpdatedAt : GoTime
deriving DecidableEq, Repr

/-- The evaluation-variant per-incident staleness test (main.go, worker body):
`cachedEval == nil || cachedEval.JiraUpdatedAt.Unix() != incident.UpdatedDate.Unix()`. -/
def needsEval (cachedEval : Option CachedEvaluation) (incident : Incident) : Bool :=
  match cachedEval with
  | none => true
  | some e => decide (e.jiraUpdatedAt.unix ≠ incident.updatedDate.unix)

/-- `database.ShouldRenotifyFromCache`, with the wall clock consulted by
`time.Since` made explicit as `now`:
`msg == nil → true`, otherwise `time.Since(msg.LastNotification) ≥ intervalMinutes*time.Minute`. -/
def shouldRenotifyFromCache (msg : Option MessageToDelete) (intervalMinutes : Int)
    (now : GoTime) : Bool :=
  match msg with
  | none => true
  | some m => decide (GoTime.since now m.lastNotification ≥ intervalMinutes * minuteNs)

/-! ## The `discord_messages` table

`CreateTable` declares `UNIQUE KEY unique_incident_assignee (incident_key, assignee)`;
`UpsertMessage` runs `INSERT … ON DUPLICATE KEY UPDATE channel_id, message_id,
last_notification = NOW()`; `DeleteMessage` runs
`DELETE … WHERE incident_key = ? AND assignee = ?`. We model the table as a
list of rows and the statements by their MySQL semantics under that unique key. -/

/-- One stored row of `discord_messages` (the auto-increment `id` plays no
role in any claim and is omitted). -/
structure MsgRow where
  incidentKey : String
  channelID : String
  messageID : String
  assignee : String
  createdAt : GoTime
  lastNotification : GoTime
deriving DecidableEq, Repr

/-- The `discord_messages` table contents. -/
abbrev MsgStore := List MsgRow

/-- Row matches the unique key `(incident_key, assignee)`. -/
def sameKeyPair (key asg : String) (r : MsgRow) : Bool :=
  r.incidentKey == key && r.assignee == asg

/-- `UpsertMessage`: if a row with the same `(incident_key, assignee)` exists,
MySQL's ON DUPLICATE KEY UPDATE rewrites that row's `channel_id`, `message_id`
and `last_notification` in place; otherwise a fresh row is inserted (with
`created_at` and `last_notification` defaulting to the current time). -/
def upsertMessage (key ch mid asg : String) (now : GoTime) (s : MsgStore) : MsgStore :=
  if s.any (sameKeyPair key asg) then
    s.map (fun r =>
      if sameKeyPair key asg r then
        { r with channelID := ch, messageID := mid, lastNotification := now }
      else r)
  else
    s ++ [{ incidentKey := key, channelID := ch, messageID := mid, assignee := asg,
            createdAt := now, lastNotification := now }]

/-- `DeleteMessage`: remove every row with the given `(incident_key, assignee)`. -/
def deleteMessage (key asg : String) (s : MsgStore) : MsgStore :=
  s.filter (fun r => !(sameKeyPair key asg r))

/-- `CleanupRemovedIncidents`' effect on the table: iterate the snapshot of
all active rows and, for each row whose incident key is absent from the
current key set, run `DeleteMessage` for its pair. -/
def cleanupStore (currentKeys : List String) (s : MsgStore) : MsgStore :=
  s.foldl
    (fun acc m =>
      if currentKeys.contains m.incidentKey then acc
      else deleteMessage m.incidentKey m.assignee acc)
    s

/-- The store operations a cycle performs on `discord_messages`. -/
inductive StoreOp
  | upsert (key ch mid asg : String) (now : GoTime)
  | delete (key asg : String)
  | cleanup (currentKeys : List String)
deriving Repr

/-- Apply one operation to the table. -/
def applyOp (s : MsgStore) (op : StoreOp) : MsgStore :=
  match op with
  | StoreOp.upsert key ch mid asg now => upsertMessage key ch mid asg now s
  | StoreOp.delete key asg => deleteMessage key asg s
  | StoreOp.cleanup currentKeys => cleanupStore currentKeys s

/-- Run a sequence of operations on the initially empty table. -/
def runOps (ops : List StoreOp) : MsgStore := ops.foldl applyOp []

/-- Number of rows stored for a given `(incident_key, assignee)` pair. -/
def pairCount (s : MsgStore) (key asg : String) : Nat :=
  s.countP (sameKeyPair key asg)

/-- At most one row per `(incident_key, assignee)` pair. -/
def UniquePairs (s : MsgStore) : Prop :=
  ∀ key asg, pairCount s key asg ≤ 1

/-! ## Effect traces and the cycle model

External calls made during a cycle are recorded in order as `Effect`s; the
outcome of every external call is supplied up front by a `CycleEnv` of
oracles, so each cycle variant becomes a pure function `CycleEnv → outcome`. -/

/-- One observable side effect of a cycle, in the order the code issues them. -/
inductive Effect
  | queryMessages (keys : List String)
  | queryEvaluations (keys : List String)
  | saveIncidentFile (key asg : String)
  | evalCall (key : String)
  | discordDelete (channelID messageID : String)
  | discordSend (key : String)
  | upsertMsg (key channelID messageID asg : String)
  | upsertEval (key : String)
  | storeDelete (key asg : String)
deriving DecidableEq, Repr

/-- Outcomes of every external call a cycle can make. `none` / `false`
means the corresponding Go call returned an error. Results that the Go code
only logs (discord delete during replacement, the two upserts, the DB
delete inside cleanup) are still carried here to make "the code ignores
them" provable. -/
structure CycleEnv where
  fetchResult : Option (List Incident)
  msgCacheResult : Option (List (String × MessageToDelete))
  evalCacheResult : Option (List (String × CachedEvaluation))
  activeMessages : Option (List MsgRow)
  storeHasFile : String → String → Bool
  saveFileOk : String → String → Bool
  evalOk : Incident → Bool
  sendResult : Incident → Option String
  channelFor : String → Option String
  discordDeleteOk : String → String → Bool
  upsertMsgOk : String → Bool
  upsertEvalOk : String → Bool
  dbDeleteOk : String → String → Bool
  now : GoTime
  renotifyIntervalMinutes : Int

/-- Go map lookup on an association list (`cache[k]`, zero value `none`). -/
def lookupAssoc {α : Type} (l : List (String × α)) (k : String) : Option α :=
  (l.find? (fun p => p.1 == k)).map (fun p => p.2)

/-- Per-worker tally entry of the evaluation-variant cycle (main.go `result`). -/
structure EvalWorkerResult where
  isNew : Bool
  evaluated : Bool
  skipped : Bool
  hasError : Bool
deriving DecidableEq, Repr

/-- The evaluation-variant worker body (main.go `syncIncidents`, inner loop):
staleness test, snapshot save for new incidents (save errors only logged),
AI evaluation, delete-old-message (failure only logged), send, then the two
upserts (failures only logged). Returns the tally entry and the effect trace. -/
def processIncident (env : CycleEnv) (msgCache : List (String × MessageToDelete))
    (evalCache : List (String × CachedEvaluation)) (inc : Incident) :
    EvalWorkerResult × List Effect :=
  let cachedEval := lookupAssoc evalCache inc.key
  let existingMsg := lookupAssoc msgCache (inc.key ++ ":" ++ inc.assignee)
  if !(needsEval cachedEval inc) then
    ({ isNew := false, evaluated := false, skipped := true, hasError := false }, [])
  else
    let isNew := !(env.storeHasFile inc.key inc.assignee)
    let saveFx := if isNew then [Effect.saveIncidentFile inc.key inc.assignee] else []
    let fx1 := saveFx ++ [Effect.evalCall inc.key]
    if !(env.evalOk inc) then
      ({ isNew := isNew, evaluated := false, skipped := false, hasError := true }, fx1)
    else
      let delFx := match existingMsg with
        | some m => [Effect.discordDelete m.channelID m.messageID]
        | none => []
      let fx2 := fx1 ++ delFx ++ [Effect.discordSend inc.key]
      match env.sendResult inc with
      | none =>
          ({ isNew := isNew, evaluated := false, skipped := false, hasError := true }, fx2)
      | some messageID =>
          let channelID := (env.channelFor inc.assignee).getD ""
          ({ isNew := isNew, evaluated := true, skipped := false, hasError := false },
           fx2 ++ [Effect.upsertMsg inc.key channelID messageID inc.assignee,
                   Effect.upsertEval inc.key])

/-- `CleanupRemovedIncidents` as an effect trace: for each active row whose
incident key is not in the current set, a best-effort channel-side delete
(when the delete capability is present) followed by the store-side delete.
`discordDelOk`, the channel-side call's outcome, is only logged by the code. -/
def cleanupEffects (currentKeys : List String) (active : List MsgRow)
    (hasDeleteCap : Bool) (discordDelOk : String → String → Bool) : List Effect :=
  active.flatMap (fun m =>
    if currentKeys.contains m.incidentKey then []
    else
      (if hasDeleteCap then [Effect.discordDelete m.channelID m.messageID] else [])
        ++ [Effect.storeDelete m.incidentKey m.assignee])

/-- Aggregate outcome of one evaluation-variant cycle. -/
structure CycleOutcome where
  aborted : Bool
  newCount : Nat
  evaluatedCount : Nat
  skippedCount : Nat
  errorCount : Nat
  effects : List Effect
deriving DecidableEq, Repr

/-- The post-fetch body of the evaluation-variant `syncIncidents` (main.go),
parametrized by the two in-memory caches actually used: per-incident
processing, tally, then cleanup (a cleanup error adds to the error count). -/
def syncIncidentsCore (env : CycleEnv) (incidents : List Incident)
    (msgCache : List (String × MessageToDelete))
    (evalCache : List (String × CachedEvaluation)) : CycleOutcome :=
  let currentKeys := incidents.map (fun i => i.key)
  let perInc := incidents.map (processIncident env msgCache evalCache)
  let results := perInc.map (fun p => p.1)
  let incFx := (perInc.map (fun p => p.2)).flatten
  let cleanFx := match env.activeMessages with
    | none => []
    | some active => cleanupEffects currentKeys active true env.discordDeleteOk
  let cleanupErr : Nat := match env.activeMessages with
    | none => 1
    | some _ => 0
  { aborted := false,
    newCount := results.countP (fun r => r.isNew),
    evaluatedCount := results.countP (fun r => r.evaluated),
    skippedCount := results.countP (fun r => r.skipped),
    errorCount := results.countP (fun r => r.hasError) + cleanupErr,
    effects := Effect.queryMessages currentKeys :: Effect.queryEvaluations currentKeys
      :: incFx ++ cleanFx }

/-- The evaluation-variant `syncIncidents` (main.go): fetch (error aborts the
cycle with no effect), two batched cache loads (errors degrade to empty
maps), then the post-fetch body. -/
def syncIncidents (env : CycleEnv) : CycleOutcome :=
  match env.fetchResult with
  | none =>
      { aborted := true, newCount := 0, evaluatedCount := 0, skippedCount := 0,
        errorCount := 0, effects := [] }
  | some incidents =>
      syncIncidentsCore env incidents (env.msgCacheResult.getD [])
        (env.evalCacheResult.getD [])

/-- `sendDiscordNotification` (notification variant): delete the old message
first when one is cached (failure only logged), send the replacement, look up
the assignee channel, upsert the record (failure only logged). Returns
whether the call succeeded and its effect trace. -/
def sendDiscordNotification (env : CycleEnv) (inc : Incident)
    (existingMsg : Option MessageToDelete) : Bool × List Effect :=
  let delFx := match existingMsg with
    | some m => [Effect.discordDelete m.channelID m.messageID]
    | none => []
  match env.sendResult inc with
  | none => (false, delFx ++ [Effect.discordSend inc.key])
  | some messageID =>
      match env.channelFor inc.assignee with
      | none => (false, delFx ++ [Effect.discordSend inc.key])
      | some channelID =>
          (true, delFx ++ [Effect.discordSend inc.key,
                           Effect.upsertMsg inc.key channelID messageID inc.assignee])

/-- Per-worker tally entry of the notification-variant cycle. -/
structure NotifyWorkerResult where
  isNew : Bool
  notified : Bool
  skipped : Bool
  hasError : Bool
deriving DecidableEq, Repr

/-- The notification-variant worker body: save the snapshot for new incidents
(a save error skips the notification), then either notify (when
`ShouldRenotifyFromCache` fires) or skip. -/
def processIncidentNotify (env : CycleEnv) (msgCache : List (String × MessageToDelete))
    (inc : Incident) : NotifyWorkerResult × List Effect :=
  let existingMsg := lookupAssoc msgCache (inc.key ++ ":" ++ inc.assignee)
  let isNew := !(env.storeHasFile inc.key inc.assignee)
  if isNew && !(env.saveFileOk inc.key inc.assignee) then
    ({ isNew := true, notified := false, skipped := false, hasError := true },
     [Effect.saveIncidentFile inc.key inc.assignee])
  else
    let saveFx := if isNew then [Effect.saveIncidentFile inc.key inc.assignee] else []
    if shouldRenotifyFromCache existingMsg env.renotifyIntervalMinutes env.now then
      let sent := sendDiscordNotification env inc existingMsg
      ({ isNew := isNew, notified := sent.1, skipped := false, hasError := !sent.1 },
       saveFx ++ sent.2)
    else
      ({ isNew := isNew, notified := false, skipped := true, hasError := false }, saveFx)

/-- Aggregate outcome of one notification-variant cycle. -/
structure NotifyCycleOutcome where
  aborted : Bool
  newCount : Nat
  renotifiedCount : Nat
  skippedCount : Nat
  errorCount : Nat
  effects : List Effect
deriving DecidableEq, Repr

/-- The post-fetch body of the notification-variant `syncIncidents`,
parametrized by the in-memory message cache actually used. -/
def syncIncidentsNotifyCore (env : CycleEnv) (incidents : List Incident)
    (msgCache : List (String × MessageToDelete)) : NotifyCycleOutcome :=
  let currentKeys := incidents.map (fun i => i.key)
  let perInc := incidents.map (processIncidentNotify env msgCache)
  let results := perInc.map (fun p => p.1)
  let incFx := (perInc.map (fun p => p.2)).flatten
  let cleanFx := match env.activeMessages with
    | none => []
    | some active => cleanupEffects currentKeys active true env.discordDeleteOk
  let cleanupErr : Nat := match env.activeMessages with
    | none => 1
    | some _ => 0
  { aborted := false,
    newCount := results.countP (fun r => r.isNew),
    renotifiedCount := results.countP (fun r => r.notified && !r.isNew),
    skippedCount := results.countP (fun r => r.skipped),
    errorCount := results.countP (fun r => r.hasError) + cleanupErr,
    effects := Effect.queryMessages currentKeys :: incFx ++ cleanFx }

/-- The notification-variant `syncIncidents`: fetch (error aborts with no
effect), one batched message-cache load (error degrades to an empty map),
then the post-fetch body. -/
def syncIncidentsNotify (env : CycleEnv) : NotifyCycleOutcome :=
  match env.fetchResult with
  | none =>
      { aborted := true, newCount := 0, renotifiedCount := 0, skippedCount := 0,
        errorCount := 0, effects := [] }
  | some incidents =>
      syncIncidentsNotifyCore env incidents (env.msgCacheResult.getD [])

/-! ## File-snapshot storage (`internal/storage`)

The filesystem is an association list from paths to stored incidents
(`WriteFile` of the JSON serialization is modelled as storing the incident
value; `MkdirAll` and `WriteFile` are modelled as succeeding). -/

/-- The snapshot directory contents: path ↦ stored incident. -/
abbrev FileSys := List (String × Incident)

/-- `getFileName`: sanitize the key and append `.json`. -/
def getFileName (key : String) : String :=
  (((key.replace "/" "_").replace "\\" "_").replace ":" "_") ++ ".json"

/-- `getAssigneePath`: empty assignee becomes `Unassigned`, then the name is
sanitized and joined under the base path. -/
def getAssigneePath (basePath assignee : String) : String :=
  let a := if assignee = "" then "Unassigned" else assignee
  let a := (((((((a.replace "/" "_").replace "\\" "_").replace ":" "_").replace "?" "_").replace
    "*" "_").replace "<" "_").replace ">" "_").replace "|" "_"
  basePath ++ "/" ++ a

/-- Full path of an incident's snapshot file. -/
def incidentFilePath (basePath key assignee : String) : String :=
  getAssigneePath basePath assignee ++ "/" ++ getFileName key

/-- `IncidentExists`: the snapshot file is present. -/
def incidentExists (fs : FileSys) (basePath key assignee : String) : Bool :=
  fs.any (fun p => p.1 == incidentFilePath basePath key assignee)

/-- `SaveIncident`: return immediately when the snapshot already exists,
otherwise write the file. -/
def saveIncident (fs : FileSys) (basePath : String) (inc : Incident) : FileSys :=
  if incidentExists fs basePath inc.key inc.assignee then fs
  else (incidentFilePath basePath inc.key inc.assignee, inc) :: fs

/-! ## Sample data for witnesses -/

/-- Sample instant 0. -/
def tA : GoTime := ⟨0, 0⟩

/-- Sample instant one minute later. -/
def tB : GoTime := ⟨60, 0⟩

/-- Sample incident. -/
def incA : Incident :=
  { key := "PROJ-1", title := "t", status := "Finalizado", issueType := "BUG",
    assignee := "Ana", createdDate := tA, updatedDate := tB }

/-- Sample stored message row. -/
def rowA : MsgRow :=
  { incidentKey := "PROJ-1", channelID := "ch1", messageID := "m1",
    assignee := "Ana", createdAt := tA, lastNotification := tA }

/-- Sample cached message. -/
def msgA : MessageToDelete :=
  { incidentKey := "PROJ-1", channelID := "ch1", messageID := "m1",
    assignee := "Ana", createdAt := tA, lastNotification := tA }

/-- Sample operation sequence: two upserts on the same pair, a delete, a cleanup. -/
def opsA : List StoreOp :=
  [StoreOp.upsert "PROJ-1" "ch1" "m1" "Ana" tA,
   StoreOp.upsert "PROJ-1" "ch2" "m2" "Ana" tB,
   StoreOp.delete "PROJ-2" "Bob",
   StoreOp.cleanup ["PROJ-1"]]

/-- Recognizes a store-side delete effect. -/
def isStoreDeleteFx : Effect → Bool
  | Effect.storeDelete _ _ => true
  | _ => false

/-- Sample stored row for an incident absent from the current snapshot. -/
def rowB : MsgRow :=
  { incidentKey := "PROJ-2", channelID := "ch2", messageID := "m2",
    assignee := "Bob", createdAt := tA, lastNotification := tA }

/-- Sample cycle environment: one incident, a cached message for it, an empty
evaluation cache, channel-side deletes and record upserts failing. -/
def envA : CycleEnv :=
  { fetchResult := some [incA],
    msgCacheResult := some [("PROJ-1:Ana", msgA)],
    evalCacheResult := some [],
    activeMessages := some [rowA, rowB],
    storeHasFile := fun _ _ => true,
    saveFileOk := fun _ _ => true,
    evalOk := fun _ => true,
    sendResult := fun _ => some "m9",
    channelFor := fun _ => some "ch1",
    discordDeleteOk := fun _ _ => false,
    upsertMsgOk := fun _ => false,
    upsertEvalOk := fun _ => false,
    dbDeleteOk := fun _ _ => true,
    now := tB,
    renotifyIntervalMinutes := 1 }

/-! ## Store lemmas -/

lemma sameKeyPair_update (k a key ch mid asg : String) (now : GoTime) (r : MsgRow) :
    sameKeyPair k a
      (if sameKeyPair key asg r then
        { r with channelID := ch, messageID := mid, lastNotification := now }
      else r) = sameKeyPair k a r := by
  split <;> simp [sameKeyPair]

lemma pairCount_upsert (key ch mid asg : String) (now : GoTime) (s : MsgStore)
    (k a : String) (h : pairCount s k a ≤ 1) :
    pairCount (upsertMessage key ch mid asg now s) k a ≤ 1 := by
  unfold upsertMessage pairCount
  split
  · rw [List.countP_map]
    have hfun : (sameKeyPair k a ∘ fun r =>
        if sameKeyPair key asg r then
          { r with channelID := ch, messageID := mid, lastNotification := now }
        else r) = sameKeyPair k a :=
      funext fun r => sameKeyPair_update k a key ch mid asg now r
    rw [hfun]
    exact h
  · rename_i hnone
    rw [List.countP_append]
    by_cases hka : k = key ∧ a = asg
    · have hz : s.countP (sameKeyPair k a) = 0 := by
        rw [List.countP_eq_zero]
        intro r hr
        rw [Bool.not_eq_true]
        rcases hka with ⟨hk, ha⟩
        subst hk; subst ha
        exact Bool.not_eq_true _ |>.mp (fun hc => hnone (List.any_eq_true.mpr ⟨r, hr, hc⟩))
      rw [hz]
      have hone : List.countP (sameKeyPair k a)
          [{ incidentKey := key, channelID := ch, messageID := mid, assignee := asg,
             createdAt := now, lastNotification := now }] ≤ 1 := by
        cases hb : sameKeyPair k a
          { incidentKey := key, channelID := ch, messageID := mid, assignee := asg,
            createdAt := now, lastNotification := now } <;>
          simp [List.countP_cons, hb]
      simpa using hone
    · have hz : List.countP (sameKeyPair k a)
          [{ incidentKey := key, channelID := ch, messageID := mid, assignee := asg,
             createdAt := now, lastNotification := now }] = 0 := by
        rw [List.countP_eq_zero]
        intro r hr
        simp only [List.mem_singleton] at hr
        subst hr
        simp only [sameKeyPair, Bool.and_eq_true, beq_iff_eq]
        intro hc
        exact hka ⟨hc.1.symm, hc.2.symm⟩
      rw [hz]
      simpa using h

lemma pairCount_delete_le (key asg : String) (s : MsgStore) (k a : String) :
    pairCount (deleteMessage key asg s) k a ≤ pairCount s k a := by
  unfold deleteMessage pairCount
  induction s with
  | nil => simp
  | cons r rs ih =>
    by_cases hr : sameKeyPair key asg r = true
    · simp only [List.filter_cons, hr]
      simp only [Bool.not_true, if_false]
      calc (rs.filter (fun x => !(sameKeyPair key asg x))).countP (sameKeyPair k a)
          ≤ rs.countP (sameKeyPair k a) := ih
        _ ≤ (r :: rs).countP (sameKeyPair k a) := by
            rw [List.countP_cons]
            omega
    · simp only [List.filter_cons, hr, Bool.not_false, if_true]
      rw [List.countP_cons, List.countP_cons]
      omega

lemma pairCount_cleanup_le (currentKeys : List String) (s : MsgStore) (k a : String) :
    pairCount (cleanupStore currentKeys s) k a ≤ pairCount s k a := by
  unfold cleanupStore
  have main : ∀ (l : List MsgRow) (acc : MsgStore),
      pairCount (l.foldl
        (fun acc m =>
          if currentKeys.contains m.incidentKey then acc
          else deleteMessage m.incidentKey m.assignee acc) acc) k a
      ≤ pairCount acc k a := by
    intro l
    induction l with
    | nil => intro acc; simp
    | cons m ms ih =>
      intro acc
      simp only [List.foldl_cons]
      by_cases hm : currentKeys.contains m.incidentKey = true
      · rw [if_pos hm]; exact ih acc
      · rw [if_neg hm]
        calc _ ≤ pairCount (deleteMessage m.incidentKey m.assignee acc) k a := ih _
          _ ≤ pairCount acc k a := pairCount_delete_le _ _ _ _ _
  exact main s s

lemma uniquePairs_applyOp (s : MsgStore) (op : StoreOp) (h : UniquePairs s) :
    UniquePairs (applyOp s op) := by
  intro k a
  match op with
  | StoreOp.upsert key ch mid asg now => exact pairCount_upsert key ch mid asg now s k a (h k a)
  | StoreOp.delete key asg => exact le_trans (pairCount_delete_le key asg s k a) (h k a)
  | StoreOp.cleanup currentKeys =>
      exact le_trans (pairCount_cleanup_le currentKeys s k a) (h k a)

lemma uniquePairs_runOps (ops : List StoreOp) : UniquePairs (runOps ops) := by
  unfold runOps
  have main : ∀ (l : List StoreOp) (acc : MsgStore),
      UniquePairs acc → UniquePairs (l.foldl applyOp acc) := by
    intro l
    induction l with
    | nil => intro acc h; simpa using h
    | cons op ops ih =>
      intro acc h
      simp only [List.foldl_cons]
      exact ih _ (uniquePairs_applyOp acc op h)
  refine main ops [] ?_
  intro k a
  simp [pairCount]

/-! ## Claims -/

/-- C1: starting from the empty `discord_messages` table, any sequence of
`UpsertMessage` / `DeleteMessage` / `CleanupRemovedIncidents` operations
leaves at most one row per `(incident key, assignee)` pair, and
`UpsertMessage` on an existing pair rewrites the row in place (the table
keeps its length) instead of adding a second row. -/
theorem upsert_cycle_at_most_one_record (ops : List StoreOp) (key asg : String) :
    pairCount (runOps ops) key asg ≤ 1 ∧
    ∀ (s : MsgStore) (k c m a : String) (t : GoTime),
      s.any (sameKeyPair k a) = true → (upsertMessage k c m a t s).length = s.length := by
  refine ⟨uniquePairs_runOps ops key asg, ?_⟩
  intro s k c m a t h
  unfold upsertMessage
  rw [if_pos h, List.length_map]

/-- Witness for C1 at a concrete operation sequence and store. -/
theorem upsert_cycle_at_most_one_record_witness :
    pairCount (runOps opsA) "PROJ-1" "Ana" ≤ 1 ∧
    (upsertMessage "PROJ-1" "ch2" "m2" "Ana" tB [rowA]).length = [rowA].length :=
  ⟨(upsert_cycle_at_most_one_record opsA "PROJ-1" "Ana").1,
   (upsert_cycle_at_most_one_record opsA "PROJ-1" "Ana").2 [rowA] "PROJ-1" "ch2" "m2" "Ana" tB
     (by decide)⟩

/-- C2: with a cached evaluation present, `needsEval` is `true` iff the stored
upstream-updated timestamp and the incident's current upstream-updated
timestamp differ once truncated to seconds (their whole-second parts differ,
which is what `Unix()` compares); with no cached evaluation it is always
`true`. -/
theorem needsEval_iff_timestamp_mismatch (e : CachedEvaluation) (inc : Incident) :
    (needsEval (some e) inc = true ↔ e.jiraUpdatedAt.sec ≠ inc.updatedDate.sec) ∧
    needsEval none inc = true := by
  refine ⟨?_, rfl⟩
  simp [needsEval, GoTime.unix]

/-- C3: `ShouldRenotifyFromCache` with a cached record fires iff the elapsed
time `now - lastNotification` is at least the configured interval, it fires
at exact equality, and with no cached record it always fires. -/
theorem shouldRenotifyFromCache_iff (m : MessageToDelete) (ivl : Int) (now : GoTime) :
    (shouldRenotifyFromCache (some m) ivl now = true ↔
      GoTime.since now m.lastNotification ≥ ivl * minuteNs) ∧
    (GoTime.since now m.lastNotification = ivl * minuteNs →
      shouldRenotifyFromCache (some m) ivl now = true) ∧
    shouldRenotifyFromCache none ivl now = true := by
  refine ⟨?_, ?_, rfl⟩
  · simp [shouldRenotifyFromCache]
  · intro h
    simp [shouldRenotifyFromCache, h]

/-- Witness for C3 at the exact boundary: one minute elapsed, one-minute interval. -/
theorem shouldRenotifyFromCache_iff_witness :
    shouldRenotifyFromCache (some msgA) 1 tB = true :=
  (shouldRenotifyFromCache_iff msgA 1 tB).2.1 (by decide)

/-- C9: both decision functions are deterministic in their explicit inputs —
identical `(incident, cachedEvaluation)` inputs give the same `needsEval`
answer and identical `(cachedNotification, interval, now)` inputs give the
same `ShouldRenotifyFromCache` answer, the wall clock entering only through
the explicit `now`. -/
theorem decisionFunctions_deterministic (inc1 inc2 : Incident)
    (ce1 ce2 : Option CachedEvaluation) (m1 m2 : Option MessageToDelete)
    (ivl : Int) (now : GoTime) (h1 : inc1 = inc2) (h2 : ce1 = ce2) (h3 : m1 = m2) :
    needsEval ce1 inc1 = needsEval ce2 inc2 ∧
    shouldRenotifyFromCache m1 ivl now = shouldRenotifyFromCache m2 ivl now := by
  subst h1; subst h2; subst h3
  exact ⟨rfl, rfl⟩

/-- Witness for C9 at concrete inputs. -/
theorem decisionFunctions_deterministic_witness :
    needsEval none incA = needsEval none incA ∧
    shouldRenotifyFromCache (some msgA) 1 tB = shouldRenotifyFromCache (some msgA) 1 tB :=
  decisionFunctions_deterministic incA incA none none (some msgA) (some msgA) 1 tB rfl rfl rfl

/-- C10: `SaveIncident` never overwrites — when the snapshot file for the
incident's `(key, assignee)` already exists it returns with the filesystem
unchanged — and it is idempotent: saving the same incident twice equals
saving it once. -/
theorem saveIncident_idempotent (fs : FileSys) (basePath : String) (inc : Incident) :
    (incidentExists fs basePath inc.key inc.assignee = true →
      saveIncident fs basePath inc = fs) ∧
    saveIncident (saveIncident fs basePath inc) basePath inc = saveIncident fs basePath inc := by
  constructor
  · intro h
    unfold saveIncident
    rw [if_pos h]
  · cases hex : incidentExists fs basePath inc.key inc.assignee
    · have h1 : saveIncident fs basePath inc =
          (incidentFilePath basePath inc.key inc.assignee, inc) :: fs := by
        unfold saveIncident
        rw [hex]
        simp
      have h2 : incidentExists
          ((incidentFilePath basePath inc.key inc.assignee, inc) :: fs)
          basePath inc.key inc.assignee = true := by
        simp [incidentExists]
      rw [h1]
      unfold saveIncident
      rw [if_pos h2]
    · have h1 : saveIncident fs basePath inc = fs := by
        unfold saveIncident
        rw [if_pos hex]
      rw [h1]
      exact h1

/-- Witness for C10: the existing-file branch at a concrete filesystem. -/
theorem saveIncident_idempotent_witness :
    saveIncident [(incidentFilePath "data" "PROJ-1" "Ana", incA)] "data" incA
      = [(incidentFilePath "data" "PROJ-1" "Ana", incA)] :=
  (saveIncident_idempotent [(incidentFilePath "data" "PROJ-1" "Ana", incA)] "data" incA).1
    (by simp [incidentExists, incA])

/-! ## Cleanup and cycle lemmas -/

lemma cleanupEffects_filter_store (keys : List String) (active : List MsgRow)
    (cap : Bool) (ok : String → String → Bool) :
    (cleanupEffects keys active cap ok).filter isStoreDeleteFx =
      active.flatMap (fun m =>
        if keys.contains m.incidentKey then []
        else [Effect.storeDelete m.incidentKey m.assignee]) := by
  unfold cleanupEffects
  induction active with
  | nil => rfl
  | cons m ms ih =>
    simp only [List.flatMap_cons, List.filter_append, ih]
    congr 1
    by_cases hm : keys.contains m.incidentKey = true
    · have hm2 : m.incidentKey ∈ keys := by simpa using hm
      simp [hm2]
    · have hm2 : m.incidentKey ∉ keys := by simpa using hm
      cases cap <;> simp [hm2, isStoreDeleteFx]

lemma mem_cleanupStore_of_present (currentKeys : List String) (s : MsgStore) (r : MsgRow)
    (hr : r ∈ s) (hk : currentKeys.contains r.incidentKey = true) :
    r ∈ cleanupStore currentKeys s := by
  unfold cleanupStore
  have main : ∀ (l : List MsgRow) (acc : MsgStore), r ∈ acc →
      r ∈ l.foldl (fun acc m =>
        if currentKeys.contains m.incidentKey then acc
        else deleteMessage m.incidentKey m.assignee acc) acc := by
    intro l
    induction l with
    | nil => intro acc h; simpa using h
    | cons m ms ih =>
      intro acc h
      simp only [List.foldl_cons]
      by_cases hm : currentKeys.contains m.incidentKey = true
      · rw [if_pos hm]; exact ih acc h
      · rw [if_neg hm]
        refine ih _ ?_
        unfold deleteMessage
        rw [List.mem_filter]
        refine ⟨h, ?_⟩
        have hne : r.incidentKey ≠ m.incidentKey := by
          intro he
          exact hm (by rw [← he]; exact hk)
        simp [sameKeyPair, hne]
  exact main s s hr

lemma processIncident_emptyCache_not_skipped (env : CycleEnv) (inc : Incident) :
    (processIncident env [] [] inc).1.skipped = false := by
  by_cases h1 : env.evalOk inc
  · cases h2 : env.sendResult inc <;>
      simp [processIncident, lookupAssoc, needsEval, h1, h2]
  · simp [processIncident, lookupAssoc, needsEval, h1]

lemma processIncidentNotify_emptyCache_not_skipped (env : CycleEnv) (inc : Incident) :
    (processIncidentNotify env [] inc).1.skipped = false := by
  by_cases h1 : env.storeHasFile inc.key inc.assignee <;>
    by_cases h2 : env.saveFileOk inc.key inc.assignee <;>
      simp [processIncidentNotify, lookupAssoc, shouldRenotifyFromCache, h1, h2]

/-- C4: the cleanup pass attempts a store-side delete for exactly the
persisted records whose incident key is absent from the current key set and
for none whose key is present; rows with present keys survive in the table;
and the list of attempted store-side deletes is the same whatever the
channel-side delete capability and whatever the channel-side delete outcomes. -/
theorem cleanup_store_delete_exactly_absent (currentKeys : List String)
    (active : List MsgRow) (cap cap2 : Bool) (ok ok2 : String → String → Bool)
    (k a : String) :
    (Effect.storeDelete k a ∈ cleanupEffects currentKeys active cap ok ↔
      ∃ m ∈ active, m.incidentKey = k ∧ m.assignee = a ∧
        currentKeys.contains m.incidentKey = false) ∧
    ((cleanupEffects currentKeys active cap ok).filter isStoreDeleteFx =
      (cleanupEffects currentKeys active cap2 ok2).filter isStoreDeleteFx) ∧
    (∀ r ∈ active, currentKeys.contains r.incidentKey = true →
      r ∈ cleanupStore currentKeys active) := by
  refine ⟨?_, ?_, ?_⟩
  · unfold cleanupEffects
    rw [List.mem_flatMap]
    constructor
    · rintro ⟨m, hm, hin⟩
      by_cases hc : currentKeys.contains m.incidentKey = true
      · rw [if_pos hc] at hin
        simp at hin
      · rw [if_neg hc] at hin
        rw [List.mem_append] at hin
        rcases hin with hin | hin
        · cases cap <;> simp at hin
        · simp only [List.mem_singleton] at hin
          injection hin with h1 h2
          exact ⟨m, hm, h1.symm, h2.symm, by simpa using hc⟩
    · rintro ⟨m, hm, hk, ha, hcf⟩
      refine ⟨m, hm, ?_⟩
      have hcf2 : k ∉ currentKeys := by
        rw [← hk]
        simpa using hcf
      simp [hcf2, hk, ha]
  · rw [cleanupEffects_filter_store, cleanupEffects_filter_store]
  · intro r hr hcr
    exact mem_cleanupStore_of_present currentKeys active r hr hcr

/-- Witness for C4: the absent-key row's store delete is attempted (with the
channel-side delete failing throughout), and the present-key row survives. -/
theorem cleanup_store_delete_exactly_absent_witness :
    Effect.storeDelete "PROJ-2" "Bob" ∈
      cleanupEffects ["PROJ-1"] [rowA, rowB] true (fun _ _ => false) ∧
    rowA ∈ cleanupStore ["PROJ-1"] [rowA, rowB] :=
  ⟨(cleanup_store_delete_exactly_absent ["PROJ-1"] [rowA, rowB] true false
      (fun _ _ => false) (fun _ _ => true) "PROJ-2" "Bob").1.mpr
      ⟨rowB, by simp, rfl, rfl, by decide⟩,
   (cleanup_store_delete_exactly_absent ["PROJ-1"] [rowA, rowB] true false
      (fun _ _ => false) (fun _ _ => true) "PROJ-2" "Bob").2.2 rowA (by simp) (by decide)⟩

/-- C5: when the batched cache queries fail (and the snapshot fetch
succeeded), neither cycle variant aborts: each proceeds with empty in-memory
caches, and every incident of the snapshot is then processed as having no
cached state, so none is skipped — the evaluation variant re-evaluates every
incident and the notification variant treats every incident as due. -/
theorem cacheLoadFailure_degrades (env : CycleEnv) (incs : List Incident)
    (hf : env.fetchResult = some incs)
    (hm : env.msgCacheResult = none) (he : env.evalCacheResult = none) :
    ((syncIncidents env).aborted = false ∧
      syncIncidents env = syncIncidentsCore env incs [] [] ∧
      ∀ inc ∈ incs, (processIncident env [] [] inc).1.skipped = false) ∧
    ((syncIncidentsNotify env).aborted = false ∧
      syncIncidentsNotify env = syncIncidentsNotifyCore env incs [] ∧
      ∀ inc ∈ incs, (processIncidentNotify env [] inc).1.skipped = false) := by
  have h1 : syncIncidents env = syncIncidentsCore env incs [] [] := by
    unfold syncIncidents
    rw [hf, hm, he]
    rfl
  have h2 : syncIncidentsNotify env = syncIncidentsNotifyCore env incs [] := by
    unfold syncIncidentsNotify
    rw [hf, hm]
    rfl
  refine ⟨⟨?_, h1, ?_⟩, ?_, h2, ?_⟩
  · rw [h1]; rfl
  · intro inc _
    exact processIncident_emptyCache_not_skipped env inc
  · rw [h2]; rfl
  · intro inc _
    exact processIncidentNotify_emptyCache_not_skipped env inc

/-- Witness for C5 at a concrete environment whose cache queries fail. -/
theorem cacheLoadFailure_degrades_witness :
    (syncIncidents { envA with msgCacheResult := none, evalCacheResult := none }).aborted
      = false ∧
    (processIncident { envA with msgCacheResult := none, evalCacheResult := none }
      [] [] incA).1.skipped = false :=
  ⟨(cacheLoadFailure_degrades
      { envA with msgCacheResult := none, evalCacheResult := none } [incA] rfl rfl rfl).1.1,
   (cacheLoadFailure_degrades
      { envA with msgCacheResult := none, evalCacheResult := none } [incA] rfl rfl rfl).1.2.2
     incA (by simp)⟩

/-- C6: a snapshot-fetch error aborts the whole cycle with no observable
effect in either variant — the returned outcome is the aborted one with
empty effect trace (no cache query, no snapshot save, no send, no delete, no
upsert, no cleanup) and zero tallies; the cycle function returns normally,
so the process itself survives. -/
theorem sourceFetchError_aborts (env : CycleEnv) (h : env.fetchResult = none) :
    syncIncidents env =
      { aborted := true, newCount := 0, evaluatedCount := 0, skippedCount := 0,
        errorCount := 0, effects := [] } ∧
    syncIncidentsNotify env =
      { aborted := true, newCount := 0, renotifiedCount := 0, skippedCount := 0,
        errorCount := 0, effects := [] } := by
  constructor
  · unfold syncIncidents
    rw [h]
  · unfold syncIncidentsNotify
    rw [h]

/-- Witness for C6 at a concrete environment whose fetch fails. -/
theorem sourceFetchError_aborts_witness :
    syncIncidents { envA with fetchResult := none } =
      { aborted := true, newCount := 0, evaluatedCount := 0, skippedCount := 0,
        errorCount := 0, effects := [] } ∧
    syncIncidentsNotify { envA with fetchResult := none } =
      { aborted := true, newCount := 0, renotifiedCount := 0, skippedCount := 0,
        errorCount := 0, effects := [] } :=
  sourceFetchError_aborts { envA with fetchResult := none } rfl

/-- C7: within one incident's processing with a prior cached message, both
variants issue the delete of the old delivered message immediately before the
send of the replacement in the effect trace, and the outcome of that delete
is never consulted (it is only logged), so a failed delete cannot prevent
the send — the whole computation is unchanged under any delete outcome. -/
theorem delete_old_before_send (env : CycleEnv)
    (msgCache : List (String × MessageToDelete))
    (evalCache : List (String × CachedEvaluation)) (inc : Incident)
    (m : MessageToDelete)
    (hm : lookupAssoc msgCache (inc.key ++ ":" ++ inc.assignee) = some m)
    (hne : needsEval (lookupAssoc evalCache inc.key) inc = true)
    (hev : env.evalOk inc = true) :
    (∃ pre post, (processIncident env msgCache evalCache inc).2 =
      pre ++ Effect.discordDelete m.channelID m.messageID
        :: Effect.discordSend inc.key :: post) ∧
    (∀ f, processIncident { env with discordDeleteOk := f } msgCache evalCache inc =
      processIncident env msgCache evalCache inc) ∧
    (∃ pre post, (sendDiscordNotification env inc (some m)).2 =
      pre ++ Effect.discordDelete m.channelID m.messageID
        :: Effect.discordSend inc.key :: post) ∧
    (∀ f, sendDiscordNotification { env with discordDeleteOk := f } inc (some m) =
      sendDiscordNotification env inc (some m)) := by
  refine ⟨?_, fun f => rfl, ?_, fun f => rfl⟩
  · cases hs : env.sendResult inc
    · refine ⟨(if !(env.storeHasFile inc.key inc.assignee) then
          [Effect.saveIncidentFile inc.key inc.assignee] else [])
          ++ [Effect.evalCall inc.key], [], ?_⟩
      simp [processIncident, hm, hne, hev, hs]
    · rename_i mid
      refine ⟨(if !(env.storeHasFile inc.key inc.assignee) then
          [Effect.saveIncidentFile inc.key inc.assignee] else [])
          ++ [Effect.evalCall inc.key],
          [Effect.upsertMsg inc.key ((env.channelFor inc.assignee).getD "") mid inc.assignee,
           Effect.upsertEval inc.key], ?_⟩
      simp [processIncident, hm, hne, hev, hs]
  · cases hs : env.sendResult inc
    · exact ⟨[], [], by simp [sendDiscordNotification, hs]⟩
    · rename_i mid
      cases hc : env.channelFor inc.assignee
      · exact ⟨[], [], by simp [sendDiscordNotification, hs, hc]⟩
      · rename_i ch
        exact ⟨[], [Effect.upsertMsg inc.key ch mid inc.assignee],
          by simp [sendDiscordNotification, hs, hc]⟩

/-- Witness for C7 at a concrete environment with a cached prior message. -/
theorem delete_old_before_send_witness :
    ∃ pre post, (processIncident envA [("PROJ-1:Ana", msgA)] [] incA).2 =
      pre ++ Effect.discordDelete msgA.channelID msgA.messageID
        :: Effect.discordSend incA.key :: post :=
  (delete_old_before_send envA [("PROJ-1:Ana", msgA)] [] incA msgA
    (by decide) rfl rfl).1

/-- C8: once the send has succeeded, the per-incident action completes
successfully whatever the record-upsert outcomes — the upsert results are
never consulted (only logged), the tally entry reports success and no error,
and the effects after the successful send are exactly the record upserts, so
the already-sent message is never deleted or retracted. Both variants. -/
theorem upsert_failure_after_send_nonfatal (env : CycleEnv)
    (msgCache : List (String × MessageToDelete))
    (evalCache : List (String × CachedEvaluation)) (inc : Incident)
    (em : Option MessageToDelete) (mid ch : String)
    (hne : needsEval (lookupAssoc evalCache inc.key) inc = true)
    (hev : env.evalOk inc = true)
    (hs : env.sendResult inc = some mid)
    (hc : env.channelFor inc.assignee = some ch) :
    ((processIncident env msgCache evalCache inc).1.evaluated = true ∧
     (processIncident env msgCache evalCache inc).1.hasError = false) ∧
    (∀ f g, processIncident { env with upsertMsgOk := f, upsertEvalOk := g }
      msgCache evalCache inc = processIncident env msgCache evalCache inc) ∧
    (∃ pre, (processIncident env msgCache evalCache inc).2 =
      pre ++ [Effect.discordSend inc.key, Effect.upsertMsg inc.key ch mid inc.assignee,
              Effect.upsertEval inc.key]) ∧
    ((sendDiscordNotification env inc em).1 = true ∧
     (∀ f, sendDiscordNotification { env with upsertMsgOk := f } inc em =
       sendDiscordNotification env inc em) ∧
     (∃ pre, (sendDiscordNotification env inc em).2 =
       pre ++ [Effect.discordSend inc.key, Effect.upsertMsg inc.key ch mid inc.assignee])) := by
  refine ⟨⟨?_, ?_⟩, fun f g => rfl, ?_, ?_, fun f => rfl, ?_⟩
  · simp [processIncident, hne, hev, hs]
  · simp [processIncident, hne, hev, hs]
  · refine ⟨(if !(env.storeHasFile inc.key inc.assignee) then
        [Effect.saveIncidentFile inc.key inc.assignee] else [])
        ++ [Effect.evalCall inc.key]
        ++ (match lookupAssoc msgCache (inc.key ++ ":" ++ inc.assignee) with
            | some m => [Effect.discordDelete m.channelID m.messageID]
            | none => []), ?_⟩
    cases hmc : lookupAssoc msgCache (inc.key ++ ":" ++ inc.assignee) <;>
      simp [processIncident, hne, hev, hs, hc, hmc]
  · cases em <;> simp [sendDiscordNotification, hs, hc]
  · cases hm2 : em
    · exact ⟨[], by simp [sendDiscordNotification, hs, hc]⟩
    · rename_i m
      exact ⟨[Effect.discordDelete m.channelID m.messageID],
        by simp [sendDiscordNotification, hs, hc]⟩

/-- Witness for C8: with both upserts failing in the sample environment, the
incident still completes successfully after the send. -/
theorem upsert_failure_after_send_nonfatal_witness :
    (processIncident envA [("PROJ-1:Ana", msgA)] [] incA).1.evaluated = true ∧
    (sendDiscordNotification envA incA (some msgA)).1 = true :=
  ⟨(upsert_failure_after_send_nonfatal envA [("PROJ-1:Ana", msgA)] [] incA
      (some msgA) "m9" "ch1" rfl rfl rfl rfl).1.1,
   (upsert_failure_after_send_nonfatal envA [("PROJ-1:Ana", msgA)] [] incA
      (some msgA) "m9" "ch1" rfl rfl rfl rfl).2.2.2.1⟩

end FurinaSync
